import Mathlib

/-!
Shallow embedding of `embassy-stm32/src/usb/usb_host.rs` (USB host channel engine)
for the `usbram_32_1024` peripheral variant: 32-bit USBRAM access, 1024-byte
endpoint-memory window, 4-byte alignment.  Machine integers are modelled as `Nat`
with explicit masking where the source truncates; `panic!` arms become `none`,
fallible Rust functions become `Option`/`Except`.
-/

namespace UsbHostModel

/-- Rust const USB_MAX_PIPES: number of endpoint register slots. -/
def USB_MAX_PIPES : Nat := 8

/-- Rust const EP_COUNT. -/
def EP_COUNT : Nat := 8

/-- Rust const USBRAM_SIZE for the usbram_32_1024 variant. -/
def USBRAM_SIZE : Nat := 1024

/-- Rust const USBRAM_ALIGN for 32-bit USBRAM variants. -/
def USBRAM_ALIGN : Nat := 4

/-- Rust fn align_len_up(len: u16) -> u16. -/
def align_len_up (len : Nat) : Nat :=
  (len + USBRAM_ALIGN - 1) / USBRAM_ALIGN * USBRAM_ALIGN

/-- Rust fn calc_receive_len_bits(len: u16) -> (u16, u16); the panic arm is `none`.
Returns (actual_len, len_bits). -/
def calc_receive_len_bits (len : Nat) : Option (Nat × Nat) :=
  if 2 ≤ len ∧ len ≤ 60 then
    some (align_len_up len, (align_len_up len / 2) <<< 10)
  else if 61 ≤ len ∧ len ≤ 1024 then
    some ((len + 31) / 32 * 32, ((len + 31) / 32 - 1) <<< 10 ||| 0x8000)
  else
    none

/-- USBRAM modelled as 32-bit-word-addressed memory. -/
def Mem : Type := Nat → Nat

/-- Hardware write of a 32-bit word at word index `i`. -/
def Mem.write (m : Mem) (i v : Nat) : Mem :=
  fun j => if j = i then v % 2 ^ 32 else m j

namespace btable

/-- Rust btable::write_transmit_buffer_descriptor (32-bit USBRAM variant):
`USBRAM.mem(index * 2).write_value((addr as u32) | ((len as u32) << 16))`. -/
def write_transmit_buffer_descriptor (m : Mem) (index addr len : Nat) : Mem :=
  m.write (index * 2) (addr ||| len <<< 16)

/-- Rust btable::write_receive_buffer_descriptor:
`USBRAM.mem(index * 2 + 1).write_value((addr as u32) | ((max_len_bits as u32) << 16))`. -/
def write_receive_buffer_descriptor (m : Mem) (index addr max_len_bits : Nat) : Mem :=
  m.write (index * 2 + 1) (addr ||| max_len_bits <<< 16)

/-- Rust btable::read_out_len: `(USBRAM.mem(index * 2 + 1).read() >> 16) as u16`. -/
def read_out_len (m : Mem) (index : Nat) : Nat :=
  (m (index * 2 + 1) >>> 16) % 2 ^ 16

end btable

/-- Low `n` bytes of a 32-bit word, least significant first
(Rust `val.to_le_bytes()[..n]`). -/
def le_bytes (val n : Nat) : List Nat :=
  (List.range n).map fun j => (val >>> (8 * j)) % 256

/-- Word-by-word copy-out loop of `EndpointBuffer::read`, starting at word index `w`,
`len` bytes remaining.  Each iteration reads one 32-bit word and takes
`min USBRAM_ALIGN len` bytes of it. -/
def ep_read_words (m : Mem) (w len : Nat) : List Nat :=
  if len = 0 then []
  else le_bytes (m w) (min USBRAM_ALIGN len) ++ ep_read_words m (w + 1) (len - USBRAM_ALIGN)
termination_by len
decreasing_by simp_wf; simp only [USBRAM_ALIGN]; omega

/-- Rust EndpointBuffer::read for the 32-bit USBRAM variant: copy `len` bytes out of
endpoint memory starting at byte address `addr` into a destination of `len` bytes.
The opening `assert!(buf.len() <= self.len)` against the buffer's allocated
capacity `buf_in_len` is modelled by `none` (panic) when it fails. -/
def ep_buffer_read (m : Mem) (addr buf_in_len len : Nat) : Option (List Nat) :=
  if len ≤ buf_in_len then some (ep_read_words m (addr / USBRAM_ALIGN) len)
  else none

/-- Rust UsbHost::alloc_channel_mem.  State is the EP_MEM_FREE offset; on success
returns (granted base address, new free offset).  The Err(()) arm is `none`.
`addr + len` is computed in u16, so the sum is reduced mod 2^16 (release-mode
wrap-around semantics) both in the comparison and in the stored new offset. -/
def alloc_channel_mem (free len : Nat) : Option (Nat × Nat) :=
  if (free + len) % 2 ^ 16 > USBRAM_SIZE then none
  else some (free, (free + len) % 2 ^ 16)

/-- A sequence of alloc_channel_mem calls from free offset `free`.  Returns the final
free offset and the list of granted (base, len) ranges (failed calls grant nothing
and leave the offset unchanged, as in the source). -/
def allocRun (free : Nat) : List Nat → Nat × List (Nat × Nat)
  | [] => (free, [])
  | len :: rest =>
    match alloc_channel_mem free len with
    | none => allocRun free rest
    | some (addr, free') =>
      let r := allocRun free' rest
      (r.1, (addr, len) :: r.2)

/-- Fuel-bounded helper for u32::trailing_ones. -/
def trailing_ones_aux : Nat → Nat → Nat
  | 0, _ => 0
  | fuel + 1, n => if n % 2 = 1 then trailing_ones_aux fuel (n / 2) + 1 else 0

/-- Rust u32::trailing_ones. -/
def trailing_ones (n : Nat) : Nat := trailing_ones_aux 32 n

/-- Subset of embassy_usb_driver::host::HostError used by this driver. -/
inductive HostError
  | OutOfChannels
  | OutOfSlots
deriving DecidableEq

/-- Index-allocation part of UsbHost::alloc_channel: given whether the endpoint type
is Control and the ALLOCATED_PIPES bitmap, returns (new_index, new bitmap). -/
def alloc_channel_index (is_control : Bool) (pipes : Nat) : Except HostError (Nat × Nat) :=
  if is_control then
    .ok (0, pipes)
  else
    let new_index := trailing_ones (pipes ||| 1)
    if new_index ≥ USB_MAX_PIPES then .error .OutOfChannels
    else .ok (new_index, pipes ||| 1 <<< new_index)

/-- The 2-bit STAT field values of stm32_metapac Stat. -/
inductive Stat
  | DISABLED
  | STALL
  | NAK
  | VALID
deriving DecidableEq

/-- Rust Stat::to_bits. -/
def Stat.to_bits : Stat → Nat
  | .DISABLED => 0
  | .STALL => 1
  | .NAK => 2
  | .VALID => 3

/-- Rust Stat::from_bits (2-bit field). -/
def Stat.from_bits (n : Nat) : Stat :=
  match n % 4 with
  | 0 => .DISABLED
  | 1 => .STALL
  | 2 => .NAK
  | _ => .VALID

/-- The fields of the EPR channel register used by this driver.  `stat_tx`/`stat_rx`
hold the raw 2-bit field contents. -/
structure Epr where
  ea : Nat
  stat_tx : Nat
  dtog_tx : Bool
  ctr_tx : Bool
  err_tx : Bool
  ep_type : Nat
  setup : Bool
  stat_rx : Nat
  dtog_rx : Bool
  ctr_rx : Bool
  err_rx : Bool
  devaddr : Nat
deriving DecidableEq

/-- Hardware semantics of writing image `w` to an EPR register currently holding `r`:
`ctr_tx`/`ctr_rx`/`err_tx`/`err_rx` are write-0-to-clear, `dtog_*` and `stat_*` are
write-1-to-toggle (stat masked to its 2-bit width), the remaining fields are
plain read-write. -/
def Epr.apply (r w : Epr) : Epr where
  ea := w.ea
  stat_tx := (r.stat_tx ^^^ w.stat_tx) &&& 0x3
  dtog_tx := xor r.dtog_tx w.dtog_tx
  ctr_tx := r.ctr_tx && w.ctr_tx
  err_tx := r.err_tx && w.err_tx
  ep_type := w.ep_type
  setup := w.setup
  stat_rx := (r.stat_rx ^^^ w.stat_rx) &&& 0x3
  dtog_rx := xor r.dtog_rx w.dtog_rx
  ctr_rx := r.ctr_rx && w.ctr_rx
  err_rx := r.err_rx && w.err_rx
  devaddr := w.devaddr

/-- Rust fn invariant(mut r: Epr) -> Epr: the safe-to-write register image. -/
def invariant (r : Epr) : Epr :=
  { r with
    ctr_rx := true
    ctr_tx := true
    dtog_rx := false
    dtog_tx := false
    stat_rx := (Stat.from_bits 0).to_bits
    stat_tx := (Stat.from_bits 0).to_bits }

/-- Rust Channel::activate_tx: read EPR, toggle stat_tx towards VALID, write;
result is the register contents after the hardware applies the write. -/
def activate_tx (r : Epr) : Epr :=
  let current_stat_tx := (Stat.from_bits r.stat_tx).to_bits
  let stat_mask := (255 ^^^ current_stat_tx) &&& 0x3
  r.apply { invariant r with stat_tx := (Stat.from_bits stat_mask).to_bits }

/-- Rust Channel::activate_rx. -/
def activate_rx (r : Epr) : Epr :=
  let current_stat_rx := (Stat.from_bits r.stat_rx).to_bits
  let stat_mask := (255 ^^^ current_stat_rx) &&& 0x3
  r.apply { invariant r with stat_rx := (Stat.from_bits stat_mask).to_bits }

/-- Rust Channel::disable_tx: toggle stat_tx with its own value, i.e. clear to
DISABLED. -/
def disable_tx (r : Epr) : Epr :=
  let current_stat_tx := (Stat.from_bits r.stat_tx).to_bits
  r.apply { invariant r with stat_tx := current_stat_tx }

/-- Rust Channel::disable_rx. -/
def disable_rx (r : Epr) : Epr :=
  let current_stat_rx := (Stat.from_bits r.stat_rx).to_bits
  r.apply { invariant r with stat_rx := current_stat_rx }

/-- The epr0 write performed by the setup stage of a control transfer:
`invariant(epr0.read())` with the SETUP flag set. -/
def set_setup_reg (r : Epr) : Epr :=
  r.apply { invariant r with setup := true }

/-- Fields of the ISTR interrupt-status register read during transfers. -/
structure Istr where
  dcon_stat : Bool
  ls_dcon : Bool
deriving DecidableEq

/-- embassy_usb_driver ChannelError variants used by this driver. -/
inductive ChannelError
  | BufferOverflow
  | Disconnected
  | Timeout
  | Stall
deriving DecidableEq

/-- What one resumption of a suspended transfer observes: the ISTR register, the
elapsed milliseconds since the operation began, the channel's EPR register as
hardware left it, and the USBRAM contents. -/
structure Obs where
  istr : Istr
  elapsed_ms : Nat
  epr : Epr
  mem : Mem

/-- Rust `let timeout_ms = 1000`. -/
def timeout_ms : Nat := 1000

/-- One resumption of the poll_fn loop of Channel::write, for a request of
`buf_len` bytes.  Returns the EPR register after any write the body performs,
and the poll outcome (`none` = Pending). -/
def write_poll (buf_len : Nat) (o : Obs) : Epr × Option (Except ChannelError Nat) :=
  if !o.istr.dcon_stat then
    (disable_tx o.epr, some (.error .Disconnected))
  else if o.elapsed_ms > timeout_ms then
    (disable_tx o.epr, some (.error .Timeout))
  else
    match Stat.from_bits o.epr.stat_tx with
    | .DISABLED => (o.epr, some (.ok buf_len))
    | .STALL => (o.epr, some (.error .Stall))
    | .NAK => (o.epr, none)
    | .VALID => (o.epr, none)

/-- Run the write poll loop over the sequence of observations made at each
resumption; `none` means the operation is still pending when the trace ends. -/
def write_run (buf_len : Nat) : List Obs → Option (Epr × Except ChannelError Nat)
  | [] => none
  | o :: rest =>
    match write_poll buf_len o with
    | (e, some r) => some (e, r)
    | (_, none) => write_run buf_len rest

/-- Rust Channel::read_data, given the remaining caller-buffer capacity
`idest_len` (= buf.len() - count) and the IN endpoint buffer's address and
allocated capacity: decode the received byte count from the receive descriptor
and copy that many bytes out of the endpoint buffer.  The outer `none` is the
panic of the capacity assert inside EndpointBuffer::read. -/
def read_data (m : Mem) (index buf_in_addr buf_in_len idest_len : Nat) :
    Option (Except ChannelError (List Nat)) :=
  let rx_len := btable.read_out_len m index &&& 0x3FF
  if rx_len > idest_len then some (.error .BufferOverflow)
  else
    match ep_buffer_read m buf_in_addr buf_in_len rx_len with
    | none => none
    | some data => some (.ok data)

/-- Mutable state of Channel::read across resumptions: accumulated byte count and
the caller's buffer contents. -/
structure ReadState where
  count : Nat
  buf : List Nat
deriving DecidableEq

/-- One resumption of the poll_fn loop of Channel::read.  Returns the EPR register
after any write the body performs, the updated state, and the poll outcome; the
outer `none` is a panic of the endpoint-buffer capacity assert reached through
read_data. -/
def read_poll (max_packet_size_in index buf_in_addr buf_in_len : Nat) (o : Obs)
    (s : ReadState) :
    Option ((Epr × ReadState) × Option (Except ChannelError Nat)) :=
  if !o.istr.dcon_stat then
    some ((disable_rx o.epr, s), some (.error .Disconnected))
  else if o.elapsed_ms > timeout_ms then
    some ((disable_rx o.epr, s), some (.error .Timeout))
  else
    match Stat.from_bits o.epr.stat_rx with
    | .DISABLED =>
      match read_data o.mem index buf_in_addr buf_in_len (s.buf.length - s.count) with
      | none => none
      | some (.error e) => some ((o.epr, s), some (.error e))
      | some (.ok data) =>
        let n := data.length
        let count := s.count + n
        let buf := s.buf.take s.count ++ data ++ s.buf.drop (s.count + n)
        if count = s.buf.length ∨ n < max_packet_size_in then
          some ((o.epr, ⟨count, buf⟩), some (.ok count))
        else
          some ((activate_rx o.epr, ⟨count, buf⟩), none)
    | .STALL => some ((o.epr, s), some (.error .Stall))
    | .NAK => some ((o.epr, s), none)
    | .VALID => some ((o.epr, s), none)

/-- Run the read poll loop over a trace of observations, threading the state.
Outer `none`: a resumption panicked; `some none`: still pending when the trace
ends; `some (some _)`: the operation finished. -/
def read_run (max_in index buf_in_addr buf_in_len : Nat) (s : ReadState) :
    List Obs → Option (Option (Epr × ReadState × Except ChannelError Nat))
  | [] => some none
  | o :: rest =>
    match read_poll max_in index buf_in_addr buf_in_len o s with
    | none => none
    | some ((e, s'), some r) => some (some (e, s', r))
    | some ((_, s'), none) => read_run max_in index buf_in_addr buf_in_len s' rest

/-- Observable hardware interactions of a control transfer, in program order. -/
inductive Action
  | set_setup_flag
  | out_write (len : Nat)
  | in_read (len : Nat)
deriving DecidableEq

/-- Rust Channel::control_in over the observation traces of its three stages.
`setup_bytes` is `setup.as_bytes()` (8 bytes), `buf` the caller's data buffer.
Returns the performed stage actions in order and the overall outcome
(inner `none` = a stage is still pending; outer `none` = a stage panicked). -/
def control_in (max_in index buf_in_addr buf_in_len : Nat) (setup_bytes buf : List Nat)
    (t_setup t_data t_status : List Obs) :
    Option (List Action × Option (Except ChannelError Nat)) :=
  match write_run setup_bytes.length t_setup with
  | none => some ([.set_setup_flag, .out_write setup_bytes.length], none)
  | some (_, .error e) =>
    some ([.set_setup_flag, .out_write setup_bytes.length], some (.error e))
  | some (_, .ok _) =>
    match read_run max_in index buf_in_addr buf_in_len ⟨0, buf⟩ t_data with
    | none => none
    | some none =>
      some ([.set_setup_flag, .out_write setup_bytes.length, .in_read buf.length],
        none)
    | some (some (_, _, .error e)) =>
      some ([.set_setup_flag, .out_write setup_bytes.length, .in_read buf.length],
        some (.error e))
    | some (some (_, _, .ok count)) =>
      match write_run 0 t_status with
      | none =>
        some ([.set_setup_flag, .out_write setup_bytes.length, .in_read buf.length,
          .out_write 0], none)
      | some (_, .error e) =>
        some ([.set_setup_flag, .out_write setup_bytes.length, .in_read buf.length,
          .out_write 0], some (.error e))
      | some (_, .ok _) =>
        some ([.set_setup_flag, .out_write setup_bytes.length, .in_read buf.length,
          .out_write 0], some (.ok count))

/-- Status stage of Channel::control_out: a zero-length IN read (into `[0u8; 0]`);
on success the whole transfer returns `Ok(buf.len())`. -/
def control_out_status (max_in index buf_in_addr buf_in_len buf_len : Nat)
    (acts : List Action) (t_status : List Obs) :
    Option (List Action × Option (Except ChannelError Nat)) :=
  match read_run max_in index buf_in_addr buf_in_len ⟨0, []⟩ t_status with
  | none => none
  | some none => some (acts ++ [.in_read 0], none)
  | some (some (_, _, .error e)) => some (acts ++ [.in_read 0], some (.error e))
  | some (some (_, _, .ok _)) => some (acts ++ [.in_read 0], some (.ok buf_len))

/-- Rust Channel::control_out over the observation traces of its stages.  The data
stage is skipped when `buf.is_empty()`. -/
def control_out (max_in index buf_in_addr buf_in_len : Nat) (setup_bytes buf : List Nat)
    (t_setup t_data t_status : List Obs) :
    Option (List Action × Option (Except ChannelError Nat)) :=
  match write_run setup_bytes.length t_setup with
  | none => some ([.set_setup_flag, .out_write setup_bytes.length], none)
  | some (_, .error e) =>
    some ([.set_setup_flag, .out_write setup_bytes.length], some (.error e))
  | some (_, .ok _) =>
    if buf.isEmpty then
      control_out_status max_in index buf_in_addr buf_in_len buf.length
        [.set_setup_flag, .out_write setup_bytes.length] t_status
    else
      match write_run buf.length t_data with
      | none =>
        some ([.set_setup_flag, .out_write setup_bytes.length, .out_write buf.length],
          none)
      | some (_, .error e) =>
        some ([.set_setup_flag, .out_write setup_bytes.length, .out_write buf.length],
          some (.error e))
      | some (_, .ok _) =>
        control_out_status max_in index buf_in_addr buf_in_len buf.length
          [.set_setup_flag, .out_write setup_bytes.length, .out_write buf.length]
          t_status

/-- embassy_usb_driver Speed values this driver reports. -/
inductive Speed
  | Low
  | Full
deriving DecidableEq

/-- embassy_usb_driver::host::DeviceEvent. -/
inductive DeviceEvent
  | Connected (speed : Speed)
  | Disconnected
deriving DecidableEq

/-- One resumption of the poll_fn loop of UsbHost::wait_for_device_event
(`none` = Pending). -/
def wait_for_device_event_poll (istr : Istr) : Option DeviceEvent :=
  if istr.dcon_stat then
    some (.Connected (if istr.ls_dcon then .Low else .Full))
  else
    none

/-- Run wait_for_device_event over the ISTR values observed at each resumption. -/
def wait_for_device_event_run : List Istr → Option DeviceEvent
  | [] => none
  | i :: rest =>
    match wait_for_device_event_poll i with
    | some ev => some ev
    | none => wait_for_device_event_run rest

/-! Helper lemmas. -/

lemma or_shiftLeft16_eq_add (a b : Nat) (ha : a < 2 ^ 16) :
    a ||| b <<< 16 = a + b * 2 ^ 16 := by
  have h1 : b <<< 16 = 2 ^ 16 * b := by rw [Nat.shiftLeft_eq]; ring
  rw [h1, Nat.or_comm, ← Nat.mul_add_lt_is_or ha]
  ring

lemma and3_eq_mod (x : Nat) : x &&& 3 = x % 4 := by
  simpa using Nat.and_pow_two_sub_one_eq_mod x 2

lemma and31_eq_mod (x : Nat) : x &&& 0x1F = x % 32 := by
  simpa using Nat.and_pow_two_sub_one_eq_mod x 5

lemma alloc_channel_mem_no_wrap (free len : Nat) (h : free + len < 2 ^ 16) :
    alloc_channel_mem free len
      = if free + len > USBRAM_SIZE then none else some (free, free + len) := by
  simp only [alloc_channel_mem, Nat.mod_eq_of_lt h]

lemma allocRun_base_le (lens : List Nat) (free : Nat) (hfree : free ≤ USBRAM_SIZE)
    (hlens : ∀ l ∈ lens, USBRAM_SIZE + l < 2 ^ 16) :
    ∀ r ∈ (allocRun free lens).2, free ≤ r.1 := by
  induction lens generalizing free with
  | nil => simp [allocRun]
  | cons len rest ih =>
    intro r hr
    simp only [allocRun] at hr
    have hwrap : free + len < 2 ^ 16 := by
      have := hlens len (by simp)
      omega
    rcases h : alloc_channel_mem free len with _ | ⟨addr, free2⟩
    · rw [h] at hr
      exact ih free hfree (fun l hl => hlens l (by simp [hl])) r hr
    · rw [h] at hr
      rw [alloc_channel_mem_no_wrap free len hwrap] at h
      split at h
      · exact absurd h (by simp)
      · simp only [Option.some.injEq, Prod.mk.injEq] at h
        simp only [List.mem_cons] at hr
        rcases hr with hr | hr
        · subst hr; omega
        · have hfree2 : free2 ≤ USBRAM_SIZE := by omega
          have := ih free2 hfree2 (fun l hl => hlens l (by simp [hl])) r hr
          omega

lemma allocRun_pairwise (lens : List Nat) (free : Nat) (hfree : free ≤ USBRAM_SIZE)
    (hlens : ∀ l ∈ lens, USBRAM_SIZE + l < 2 ^ 16) :
    (allocRun free lens).2.Pairwise fun r s => r.1 + r.2 ≤ s.1 := by
  induction lens generalizing free with
  | nil => simp [allocRun]
  | cons len rest ih =>
    simp only [allocRun]
    have hwrap : free + len < 2 ^ 16 := by
      have := hlens len (by simp)
      omega
    rcases h : alloc_channel_mem free len with _ | ⟨addr, free2⟩
    · exact ih free hfree fun l hl => hlens l (by simp [hl])
    · rw [alloc_channel_mem_no_wrap free len hwrap] at h
      split at h
      · exact absurd h (by simp)
      · simp only [Option.some.injEq, Prod.mk.injEq] at h
        have hfree2 : free2 ≤ USBRAM_SIZE := by omega
        refine List.Pairwise.cons ?_ (ih free2 hfree2 fun l hl => hlens l (by simp [hl]))
        intro r hr
        have := allocRun_base_le rest free2 hfree2
          (fun l hl => hlens l (by simp [hl])) r hr
        omega

lemma trailing_ones_aux_le (fuel n : Nat) : trailing_ones_aux fuel n ≤ fuel := by
  induction fuel generalizing n with
  | zero => simp [trailing_ones_aux]
  | succ f ih =>
    simp only [trailing_ones_aux]
    split
    · have := ih (n / 2); omega
    · omega

lemma testBit_of_lt_trailing_ones_aux (fuel n k : Nat)
    (h : k < trailing_ones_aux fuel n) : n.testBit k = true := by
  induction fuel generalizing n k with
  | zero => simp [trailing_ones_aux] at h
  | succ f ih =>
    simp only [trailing_ones_aux] at h
    split at h
    · cases k with
      | zero => simpa [Nat.testBit_zero] using ‹n % 2 = 1›
      | succ k2 =>
        rw [Nat.testBit_add_one]
        exact ih (n / 2) k2 (by omega)
    · omega

lemma trailing_ones_aux_ge (j : Nat) :
    ∀ fuel n, j ≤ fuel → (∀ k, k < j → n.testBit k = true) →
      j ≤ trailing_ones_aux fuel n := by
  induction j with
  | zero => intro fuel n _ _; omega
  | succ j2 ih =>
    intro fuel n hj hbits
    cases fuel with
    | zero => omega
    | succ f =>
      have h0 : n.testBit 0 = true := hbits 0 (by omega)
      have hmod : n % 2 = 1 := by simpa [Nat.testBit_zero] using h0
      simp only [trailing_ones_aux, hmod, if_pos]
      have : j2 ≤ trailing_ones_aux f (n / 2) := by
        refine ih f (n / 2) (by omega) ?_
        intro k hk
        rw [← Nat.testBit_add_one]
        exact hbits (k + 1) (by omega)
      omega

lemma testBit_at_trailing_ones_aux (fuel n : Nat)
    (h : trailing_ones_aux fuel n < fuel) :
    n.testBit (trailing_ones_aux fuel n) = false := by
  induction fuel generalizing n with
  | zero => omega
  | succ f ih =>
    by_cases hmod : n % 2 = 1
    · simp only [trailing_ones_aux, hmod, if_pos] at h ⊢
      rw [Nat.testBit_add_one]
      exact ih (n / 2) (by omega)
    · simp only [trailing_ones_aux, hmod, if_neg, Nat.testBit_zero]
      simp [hmod]

lemma testBit_of_lt_trailing_ones (n k : Nat) (h : k < trailing_ones n) :
    n.testBit k = true :=
  testBit_of_lt_trailing_ones_aux 32 n k h

lemma trailing_ones_ge (j n : Nat) (hj : j ≤ 32)
    (h : ∀ k, k < j → n.testBit k = true) : j ≤ trailing_ones n :=
  trailing_ones_aux_ge j 32 n hj h

lemma testBit_at_trailing_ones (n : Nat) (h : trailing_ones n < 32) :
    n.testBit (trailing_ones n) = false :=
  testBit_at_trailing_ones_aux 32 n h

lemma testBit_one_of_pos (k : Nat) (hk : 1 ≤ k) : (1 : Nat).testBit k = false := by
  rw [← Bool.not_eq_true, Nat.testBit_one_eq_true_iff_self_eq_zero]
  omega

/-! Claim theorems. -/

/-- C3 counterexample: the source computes `addr + len` in u16, so at free
offset 64 and the alignment-multiple length 65532 (reachable as
align_len_up(65530)) the sum wraps to 60 and the allocation succeeds, returning
base 64 and new free offset 60, even though 64 + 65532 exceeds USBRAM_SIZE —
the claim's failure condition does not hold as stated. -/
theorem alloc_channel_mem_wrap_counterexample :
    65532 % USBRAM_ALIGN = 0 ∧ USBRAM_SIZE < 64 + 65532 ∧
    alloc_channel_mem 64 65532 = some (64, 60) := by decide

/-- C3 (amended): for calls whose u16 sum free + len does not wrap (free + len
< 2^16), alloc_channel_mem fails exactly when the free offset plus the requested
length exceeds USBRAM_SIZE and otherwise returns the prior free offset and
advances the offset by the length; granted ranges of any allocation sequence
whose lengths cannot wrap the u16 offset (USBRAM_SIZE + len < 2^16, from a free
offset within the window) are pairwise disjoint. -/
theorem alloc_channel_mem_spec :
    (∀ free len, len % USBRAM_ALIGN = 0 → free + len < 2 ^ 16 →
      (alloc_channel_mem free len = none ↔ USBRAM_SIZE < free + len) ∧
      (free + len ≤ USBRAM_SIZE →
        alloc_channel_mem free len = some (free, free + len))) ∧
    (∀ (lens : List Nat) (free : Nat), free ≤ USBRAM_SIZE →
      (∀ l ∈ lens, USBRAM_SIZE + l < 2 ^ 16) →
      (allocRun free lens).2.Pairwise
        fun r s => r.1 + r.2 ≤ s.1 ∨ s.1 + s.2 ≤ r.1) := by
  constructor
  · intro free len _ hwrap
    rw [alloc_channel_mem_no_wrap free len hwrap]
    constructor
    · split
      · simpa using by omega
      · simpa using by omega
    · intro hle
      rw [if_neg (by omega)]
  · intro lens free hfree hlens
    exact (allocRun_pairwise lens free hfree hlens).imp Or.inl

/-- Witness for C3 at a concrete allocation sequence. -/
theorem alloc_channel_mem_spec_witness :
    ((alloc_channel_mem 0 64 = none ↔ USBRAM_SIZE < 0 + 64) ∧
      (0 + 64 ≤ USBRAM_SIZE → alloc_channel_mem 0 64 = some (0, 0 + 64))) ∧
    (allocRun 64 [64, 32, 1020]).2.Pairwise
      (fun r s => r.1 + r.2 ≤ s.1 ∨ s.1 + s.2 ≤ r.1) :=
  ⟨alloc_channel_mem_spec.1 0 64 (by decide) (by decide),
    alloc_channel_mem_spec.2 [64, 32, 1020] 64 (by decide) (by decide)⟩

/-- C4: alloc_channel slot-index choice: a Control endpoint always gets index 0
with the bitmap untouched; a non-control endpoint gets the lowest clear bitmap
bit above index 0 (never 0, never an occupied bit), and the call fails with
OutOfChannels exactly when all of indices 1..7 are taken. -/
theorem alloc_channel_index_spec (pipes : Nat) :
    alloc_channel_index true pipes = .ok (0, pipes) ∧
    (∀ idx pipes2, alloc_channel_index false pipes = .ok (idx, pipes2) →
      1 ≤ idx ∧ idx < USB_MAX_PIPES ∧ pipes.testBit idx = false ∧
      (∀ k, 1 ≤ k → k < idx → pipes.testBit k = true) ∧
      pipes2 = pipes ||| 1 <<< idx ∧ pipes2.testBit idx = true) ∧
    (alloc_channel_index false pipes = .error .OutOfChannels ↔
      ∀ i, 1 ≤ i → i < USB_MAX_PIPES → pipes.testBit i = true) := by
  refine ⟨rfl, ?_, ?_⟩
  · intro idx pipes2 h
    simp only [alloc_channel_index, if_neg Bool.false_ne_true] at h
    split at h
    · exact absurd h (by simp)
    · simp only [Except.ok.injEq, Prod.mk.injEq] at h
      obtain ⟨hidx, hp2⟩ := h
      subst hidx hp2
      have hlt : trailing_ones (pipes ||| 1) < USB_MAX_PIPES := by omega
      have hlt32 : trailing_ones (pipes ||| 1) < 32 := by
        simp only [USB_MAX_PIPES] at hlt; omega
      have h1 : 1 ≤ trailing_ones (pipes ||| 1) := by
        refine trailing_ones_ge 1 (pipes ||| 1) (by omega) ?_
        intro k hk
        interval_cases k
        simp [Nat.testBit_or]
      have hclear : (pipes ||| 1).testBit (trailing_ones (pipes ||| 1)) = false :=
        testBit_at_trailing_ones (pipes ||| 1) hlt32
      have hclear2 : pipes.testBit (trailing_ones (pipes ||| 1)) = false := by
        rw [Nat.testBit_or] at hclear
        exact (Bool.or_eq_false_iff.mp hclear).1
      refine ⟨h1, hlt, hclear2, ?_, rfl, ?_⟩
      · intro k hk1 hk2
        have hset : (pipes ||| 1).testBit k = true :=
          testBit_of_lt_trailing_ones (pipes ||| 1) k hk2
        rw [Nat.testBit_or] at hset
        simpa [testBit_one_of_pos k hk1] using hset
      · rw [Nat.testBit_or]
        have : (1 <<< trailing_ones (pipes ||| 1)).testBit
            (trailing_ones (pipes ||| 1)) = true := by
          simp [Nat.shiftLeft_eq,
            Nat.testBit_two_pow_self (n := trailing_ones (pipes ||| 1))]
        simp [this]
  · constructor
    · intro h i hi1 hi2
      simp only [alloc_channel_index, if_neg Bool.false_ne_true] at h
      split at h
      · have hge : USB_MAX_PIPES ≤ trailing_ones (pipes ||| 1) := by assumption
        have hset : (pipes ||| 1).testBit i = true := by
          refine testBit_of_lt_trailing_ones (pipes ||| 1) i ?_
          simp only [USB_MAX_PIPES] at hge hi2
          omega
        rw [Nat.testBit_or] at hset
        simpa [testBit_one_of_pos i hi1] using hset
      · exact absurd h (by simp)
    · intro h
      simp only [alloc_channel_index, if_neg Bool.false_ne_true]
      have hge : trailing_ones (pipes ||| 1) ≥ USB_MAX_PIPES := by
        have h8 : (8 : Nat) ≤ trailing_ones (pipes ||| 1) := by
          refine trailing_ones_ge 8 (pipes ||| 1) (by omega) ?_
          intro k hk
          rw [Nat.testBit_or]
          rcases Nat.eq_zero_or_pos k with hk0 | hkpos
          · subst hk0; simp
          · have := h k hkpos (by simpa [USB_MAX_PIPES] using hk)
            simp [this]
        simpa [USB_MAX_PIPES] using h8
      rw [if_pos hge]

/-- Witness for C4 at the empty bitmap and the full bitmap. -/
theorem alloc_channel_index_spec_witness :
    (1 ≤ 1 ∧ 1 < USB_MAX_PIPES ∧ (0 : Nat).testBit 1 = false ∧
      (∀ k, 1 ≤ k → k < 1 → (0 : Nat).testBit k = true) ∧
      (2 : Nat) = 0 ||| 1 <<< 1 ∧ (2 : Nat).testBit 1 = true) ∧
    alloc_channel_index false 0xFE = .error .OutOfChannels :=
  ⟨(alloc_channel_index_spec 0).2.1 1 2 (by rfl),
    ((alloc_channel_index_spec 0xFE).2.2).mpr (by
      intro i h1 h2
      simp only [USB_MAX_PIPES] at h2
      interval_cases i <;> decide)⟩

lemma shiftLeft10_shiftRight10 (x : Nat) : (x <<< 10) >>> 10 = x := by
  rw [Nat.shiftLeft_eq, Nat.shiftRight_eq_div_pow]
  exact Nat.mul_div_cancel x (by norm_num)

/-- C5: the receive-descriptor codec encodes capacities 2..=60 in 2-byte blocks
with the high flag bit (bit 15) clear, capacities 61..=1024 in 32-byte blocks
with the flag bit set and the block count minus one, and is a fatal error
(the panic arm, modelled as `none`) for every length outside 2..=1024. -/
theorem calc_receive_len_bits_ranges (L : Nat) :
    (2 ≤ L ∧ L ≤ 60 →
      ∃ actual bits, calc_receive_len_bits L = some (actual, bits) ∧
        actual = align_len_up L ∧
        (bits >>> 10) &&& 0x1F = actual / 2 ∧
        bits.testBit 15 = false) ∧
    (61 ≤ L ∧ L ≤ 1024 →
      ∃ actual bits, calc_receive_len_bits L = some (actual, bits) ∧
        actual = (L + 31) / 32 * 32 ∧
        (bits >>> 10) &&& 0x1F = (L + 31) / 32 - 1 ∧
        bits.testBit 15 = true) ∧
    (¬(2 ≤ L ∧ L ≤ 1024) → calc_receive_len_bits L = none) := by
  refine ⟨?_, ?_, ?_⟩
  · rintro ⟨h1, h2⟩
    have ha : align_len_up L ≤ 60 := by
      simp only [align_len_up, USBRAM_ALIGN]; omega
    refine ⟨align_len_up L, (align_len_up L / 2) <<< 10, ?_, rfl, ?_, ?_⟩
    · simp only [calc_receive_len_bits]
      rw [if_pos ⟨h1, h2⟩]
    · rw [shiftLeft10_shiftRight10, and31_eq_mod]
      omega
    · refine Nat.testBit_lt_two_pow ?_
      rw [Nat.shiftLeft_eq]
      have : align_len_up L / 2 ≤ 30 := by omega
      calc align_len_up L / 2 * 2 ^ 10 ≤ 30 * 2 ^ 10 := Nat.mul_le_mul_right _ this
        _ < 2 ^ 15 := by norm_num
  · rintro ⟨h1, h2⟩
    have hb1 : 2 ≤ (L + 31) / 32 := by omega
    have hb2 : (L + 31) / 32 ≤ 32 := by omega
    have hlt : ((L + 31) / 32 - 1) * 2 ^ 10 < 2 ^ 15 := by
      have h31 : (L + 31) / 32 - 1 ≤ 31 := by omega
      calc ((L + 31) / 32 - 1) * 2 ^ 10 ≤ 31 * 2 ^ 10 := Nat.mul_le_mul_right _ h31
        _ < 2 ^ 15 := by norm_num
    have hbits : ((L + 31) / 32 - 1) <<< 10 ||| 0x8000 =
        ((L + 31) / 32 - 1) * 2 ^ 10 + 2 ^ 15 := by
      have hadd : (2 : Nat) ^ 15 * 1 + ((L + 31) / 32 - 1) * 2 ^ 10 =
          2 ^ 15 * 1 ||| ((L + 31) / 32 - 1) * 2 ^ 10 :=
        Nat.mul_add_lt_is_or hlt 1
      have h0x : (0x8000 : Nat) = 2 ^ 15 * 1 := by norm_num
      rw [Nat.shiftLeft_eq, h0x, Nat.or_comm, ← hadd]
      ring
    refine ⟨(L + 31) / 32 * 32, ((L + 31) / 32 - 1) <<< 10 ||| 0x8000, ?_, rfl, ?_, ?_⟩
    · simp only [calc_receive_len_bits]
      rw [if_neg (by omega), if_pos ⟨h1, h2⟩]
    · rw [hbits, Nat.shiftRight_eq_div_pow, and31_eq_mod]
      have h215 : (2 : Nat) ^ 15 = 32 * 2 ^ 10 := by norm_num
      rw [h215, ← Nat.add_mul, Nat.mul_div_cancel _ (by norm_num : 0 < 2 ^ 10)]
      omega
    · rw [hbits, Nat.add_comm (((L + 31) / 32 - 1) * 2 ^ 10) (2 ^ 15),
        Nat.testBit_two_pow_add_eq, Nat.testBit_lt_two_pow hlt]
      rfl
  · intro h
    simp only [calc_receive_len_bits]
    rw [if_neg (by omega), if_neg (by omega)]

/-- Witness for C5 at lengths 4 (low range), 100 (high range) and 2000 (panic). -/
theorem calc_receive_len_bits_ranges_witness :
    (∃ actual bits, calc_receive_len_bits 4 = some (actual, bits) ∧
      actual = align_len_up 4 ∧ (bits >>> 10) &&& 0x1F = actual / 2 ∧
      bits.testBit 15 = false) ∧
    (∃ actual bits, calc_receive_len_bits 100 = some (actual, bits) ∧
      actual = (100 + 31) / 32 * 32 ∧ (bits >>> 10) &&& 0x1F = (100 + 31) / 32 - 1 ∧
      bits.testBit 15 = true) ∧
    calc_receive_len_bits 2000 = none :=
  ⟨(calc_receive_len_bits_ranges 4).1 (by omega),
    (calc_receive_len_bits_ranges 100).2.1 (by omega),
    (calc_receive_len_bits_ranges 2000).2.2 (by omega)⟩

/-- C6: for every requested length in 2..=1024 the codec produces a capacity at
least the request, and the (address, length) fields written to a
buffer-descriptor-table word by the descriptor writers are recovered exactly by
reading the word back (read_out_len recovers the receive length field). -/
theorem descriptor_round_trip (L : Nat) (hL1 : 2 ≤ L) (hL2 : L ≤ 1024) :
    (∃ actual bits, calc_receive_len_bits L = some (actual, bits) ∧ L ≤ actual) ∧
    (∀ (m : Mem) (index addr len : Nat), addr < 2 ^ 16 → len < 2 ^ 16 →
      btable.write_transmit_buffer_descriptor m index addr len (index * 2) % 2 ^ 16
          = addr ∧
      btable.write_transmit_buffer_descriptor m index addr len (index * 2) >>> 16
          = len) ∧
    (∀ (m : Mem) (index addr bits : Nat), addr < 2 ^ 16 → bits < 2 ^ 16 →
      btable.read_out_len (btable.write_receive_buffer_descriptor m index addr bits)
          index = bits ∧
      btable.write_receive_buffer_descriptor m index addr bits (index * 2 + 1) % 2 ^ 16
          = addr) := by
  refine ⟨?_, ?_, ?_⟩
  · by_cases h60 : L ≤ 60
    · refine ⟨align_len_up L, (align_len_up L / 2) <<< 10, ?_, ?_⟩
      · simp only [calc_receive_len_bits]; rw [if_pos ⟨hL1, h60⟩]
      · simp only [align_len_up, USBRAM_ALIGN]; omega
    · refine ⟨(L + 31) / 32 * 32, ((L + 31) / 32 - 1) <<< 10 ||| 0x8000, ?_, ?_⟩
      · simp only [calc_receive_len_bits]
        rw [if_neg (by omega), if_pos ⟨by omega, hL2⟩]
      · omega
  · intro m index addr len haddr hlen
    have hword : btable.write_transmit_buffer_descriptor m index addr len (index * 2)
        = addr + len * 2 ^ 16 := by
      simp only [btable.write_transmit_buffer_descriptor, Mem.write, if_pos]
      rw [or_shiftLeft16_eq_add addr len haddr]
      exact Nat.mod_eq_of_lt (by omega)
    rw [hword, Nat.shiftRight_eq_div_pow]
    omega
  · intro m index addr bits haddr hbits
    have hword : btable.write_receive_buffer_descriptor m index addr bits (index * 2 + 1)
        = addr + bits * 2 ^ 16 := by
      simp only [btable.write_receive_buffer_descriptor, Mem.write, if_pos]
      rw [or_shiftLeft16_eq_add addr bits haddr]
      exact Nat.mod_eq_of_lt (by omega)
    constructor
    · simp only [btable.read_out_len]
      rw [hword, Nat.shiftRight_eq_div_pow]
      omega
    · rw [hword]
      omega

/-- Witness for C6 at a concrete length, address and memory. -/
theorem descriptor_round_trip_witness :
    (∃ actual bits, calc_receive_len_bits 64 = some (actual, bits) ∧ 64 ≤ actual) ∧
    (btable.write_transmit_buffer_descriptor (fun _ => 0) 1 128 64 (1 * 2) % 2 ^ 16
        = 128 ∧
      btable.write_transmit_buffer_descriptor (fun _ => 0) 1 128 64 (1 * 2) >>> 16
        = 64) ∧
    (btable.read_out_len
        (btable.write_receive_buffer_descriptor (fun _ => 0) 1 128 3072) 1 = 3072 ∧
      btable.write_receive_buffer_descriptor (fun _ => 0) 1 128 3072 (1 * 2 + 1) % 2 ^ 16
        = 128) :=
  ⟨(descriptor_round_trip 64 (by omega) (by omega)).1,
    (descriptor_round_trip 64 (by omega) (by omega)).2.1 (fun _ => 0) 1 128 64
      (by omega) (by omega),
    (descriptor_round_trip 64 (by omega) (by omega)).2.2 (fun _ => 0) 1 128 3072
      (by omega) (by omega)⟩

lemma Stat.to_bits_from_bits (n : Nat) : (Stat.from_bits n).to_bits = n % 4 := by
  simp only [Stat.from_bits]
  have h : n % 4 = 0 ∨ n % 4 = 1 ∨ n % 4 = 2 ∨ n % 4 = 3 := by omega
  rcases h with h | h | h | h <;> rw [h] <;> rfl

lemma disable_tx_stat_tx (r : Epr) : (disable_tx r).stat_tx = 0 := by
  simp only [disable_tx, Epr.apply, invariant, Stat.to_bits_from_bits]
  rw [Nat.and_xor_distrib_right, and3_eq_mod, and3_eq_mod,
    Nat.mod_mod_of_dvd _ (dvd_refl 4), Nat.xor_self]

lemma disable_rx_stat_rx (r : Epr) : (disable_rx r).stat_rx = 0 := by
  simp only [disable_rx, Epr.apply, invariant, Stat.to_bits_from_bits]
  rw [Nat.and_xor_distrib_right, and3_eq_mod, and3_eq_mod,
    Nat.mod_mod_of_dvd _ (dvd_refl 4), Nat.xor_self]

lemma activate_tx_stat_tx (r : Epr) : (activate_tx r).stat_tx = 3 := by
  simp only [activate_tx, Epr.apply, invariant, Stat.to_bits_from_bits]
  rw [Nat.and_xor_distrib_right, and3_eq_mod, and3_eq_mod]
  have h : r.stat_tx % 4 = 0 ∨ r.stat_tx % 4 = 1 ∨ r.stat_tx % 4 = 2 ∨
      r.stat_tx % 4 = 3 := by omega
  rcases h with h | h | h | h <;> rw [h] <;> rfl

lemma activate_rx_stat_rx (r : Epr) : (activate_rx r).stat_rx = 3 := by
  simp only [activate_rx, Epr.apply, invariant, Stat.to_bits_from_bits]
  rw [Nat.and_xor_distrib_right, and3_eq_mod, and3_eq_mod]
  have h : r.stat_rx % 4 = 0 ∨ r.stat_rx % 4 = 1 ∨ r.stat_rx % 4 = 2 ∨
      r.stat_rx % 4 = 3 := by omega
  rcases h with h | h | h | h <;> rw [h] <;> rfl

lemma set_setup_reg_setup (r : Epr) : (set_setup_reg r).setup = true := by
  simp [set_setup_reg, Epr.apply, invariant]

/-- C9: on every resumption of either direction's transfer, a clear bus
connection-status bit force-disables the direction and fails the operation with
Disconnected, regardless of the direction's hardware status field and of the
elapsed time (the disconnect check precedes both). -/
theorem disconnect_priority :
    (∀ buf_len o, o.istr.dcon_stat = false →
      write_poll buf_len o = (disable_tx o.epr, some (.error .Disconnected)) ∧
      Stat.from_bits (write_poll buf_len o).1.stat_tx = .DISABLED) ∧
    (∀ max_in index baddr buf_in_len o s, o.istr.dcon_stat = false →
      read_poll max_in index baddr buf_in_len o s
          = some ((disable_rx o.epr, s), some (.error .Disconnected)) ∧
      Stat.from_bits (disable_rx o.epr).stat_rx = .DISABLED) := by
  constructor
  · intro buf_len o h
    have heq : write_poll buf_len o = (disable_tx o.epr, some (.error .Disconnected)) := by
      simp [write_poll, h]
    refine ⟨heq, ?_⟩
    rw [heq]
    simp only [disable_tx_stat_tx]
    rfl
  · intro max_in index baddr buf_in_len o s h
    have heq : read_poll max_in index baddr buf_in_len o s
        = some ((disable_rx o.epr, s), some (.error .Disconnected)) := by
      simp [read_poll, h]
    refine ⟨heq, ?_⟩
    simp only [disable_rx_stat_rx]
    rfl

/-- Witness for C9 at a concrete observation whose status field is VALID and whose
elapsed time is beyond the deadline. -/
theorem disconnect_priority_witness :
    (write_poll 4
        ⟨⟨false, false⟩, 5000, ⟨0, 3, false, false, false, 0, false, 3, false, false,
          false, 0⟩, fun _ => 0⟩
      = (disable_tx ⟨0, 3, false, false, false, 0, false, 3, false, false, false, 0⟩,
          some (.error .Disconnected))) ∧
    Stat.from_bits
        (write_poll 4
          ⟨⟨false, false⟩, 5000, ⟨0, 3, false, false, false, 0, false, 3, false, false,
            false, 0⟩, fun _ => 0⟩).1.stat_tx = .DISABLED :=
  disconnect_priority.1 4
    ⟨⟨false, false⟩, 5000, ⟨0, 3, false, false, false, 0, false, 3, false, false,
      false, 0⟩, fun _ => 0⟩ rfl

/-- C7: on every resumption with the device still connected, elapsed time beyond
the fixed 1000 ms deadline force-disables the direction and fails the operation
with Timeout; a run whose status stays NAK/VALID while connected, with some
resumption past the deadline, ends in Timeout with the direction disabled. -/
theorem timeout_spec :
    timeout_ms = 1000 ∧
    (∀ buf_len o, o.istr.dcon_stat = true → timeout_ms < o.elapsed_ms →
      write_poll buf_len o = (disable_tx o.epr, some (.error .Timeout)) ∧
      Stat.from_bits (disable_tx o.epr).stat_tx = .DISABLED) ∧
    (∀ max_in index baddr buf_in_len o s, o.istr.dcon_stat = true →
      timeout_ms < o.elapsed_ms →
      read_poll max_in index baddr buf_in_len o s
          = some ((disable_rx o.epr, s), some (.error .Timeout)) ∧
      Stat.from_bits (disable_rx o.epr).stat_rx = .DISABLED) ∧
    (∀ buf_len (trace : List Obs),
      (∀ o ∈ trace, o.istr.dcon_stat = true ∧
        (Stat.from_bits o.epr.stat_tx = .NAK ∨ Stat.from_bits o.epr.stat_tx = .VALID)) →
      (∃ o ∈ trace, timeout_ms < o.elapsed_ms) →
      ∃ efin, write_run buf_len trace = some (efin, .error .Timeout) ∧
        Stat.from_bits efin.stat_tx = .DISABLED) ∧
    (∀ max_in index baddr buf_in_len s (trace : List Obs),
      (∀ o ∈ trace, o.istr.dcon_stat = true ∧
        (Stat.from_bits o.epr.stat_rx = .NAK ∨ Stat.from_bits o.epr.stat_rx = .VALID)) →
      (∃ o ∈ trace, timeout_ms < o.elapsed_ms) →
      ∃ efin sfin, read_run max_in index baddr buf_in_len s trace
          = some (some (efin, sfin, .error .Timeout)) ∧
        Stat.from_bits efin.stat_rx = .DISABLED) := by
  have hwto : ∀ buf_len o, o.istr.dcon_stat = true → timeout_ms < o.elapsed_ms →
      write_poll buf_len o = (disable_tx o.epr, some (.error .Timeout)) := by
    intro buf_len o h1 h2
    simp [write_poll, h1, h2]
  have hrto : ∀ max_in index baddr buf_in_len o s, o.istr.dcon_stat = true →
      timeout_ms < o.elapsed_ms →
      read_poll max_in index baddr buf_in_len o s
        = some ((disable_rx o.epr, s), some (.error .Timeout)) := by
    intro max_in index baddr buf_in_len o s h1 h2
    simp [read_poll, h1, h2]
  have hwpend : ∀ buf_len o, o.istr.dcon_stat = true → ¬ timeout_ms < o.elapsed_ms →
      (Stat.from_bits o.epr.stat_tx = .NAK ∨ Stat.from_bits o.epr.stat_tx = .VALID) →
      write_poll buf_len o = (o.epr, none) := by
    intro buf_len o h1 h2 h3
    simp only [write_poll, h1, Bool.not_true, Bool.false_eq_true, if_false,
      if_neg h2]
    rcases h3 with h3 | h3 <;> rw [h3]
  have hrpend : ∀ max_in index baddr buf_in_len o s, o.istr.dcon_stat = true →
      ¬ timeout_ms < o.elapsed_ms →
      (Stat.from_bits o.epr.stat_rx = .NAK ∨ Stat.from_bits o.epr.stat_rx = .VALID) →
      read_poll max_in index baddr buf_in_len o s = some ((o.epr, s), none) := by
    intro max_in index baddr buf_in_len o s h1 h2 h3
    simp only [read_poll, h1, Bool.not_true, Bool.false_eq_true, if_false,
      if_neg h2]
    rcases h3 with h3 | h3 <;> rw [h3]
  refine ⟨rfl, ?_, ?_, ?_, ?_⟩
  · intro buf_len o h1 h2
    refine ⟨hwto buf_len o h1 h2, ?_⟩
    simp only [disable_tx_stat_tx]
    rfl
  · intro max_in index baddr buf_in_len o s h1 h2
    refine ⟨hrto max_in index baddr buf_in_len o s h1 h2, ?_⟩
    simp only [disable_rx_stat_rx]
    rfl
  · intro buf_len trace hall hex
    induction trace with
    | nil => simp at hex
    | cons o rest ih =>
      have ho := hall o (by simp)
      by_cases hto : timeout_ms < o.elapsed_ms
      · refine ⟨disable_tx o.epr, ?_, ?_⟩
        · simp only [write_run, hwto buf_len o ho.1 hto]
        · simp only [disable_tx_stat_tx]
          rfl
      · have hpend := hwpend buf_len o ho.1 hto ho.2
        simp only [write_run, hpend]
        refine ih ?_ ?_
        · intro o2 h2
          exact hall o2 (by simp [h2])
        · rcases hex with ⟨o2, hmem, h2⟩
          rcases List.mem_cons.mp hmem with rfl | hmem2
          · exact absurd h2 hto
          · exact ⟨o2, hmem2, h2⟩
  · intro max_in index baddr buf_in_len s trace hall hex
    induction trace generalizing s with
    | nil => simp at hex
    | cons o rest ih =>
      have ho := hall o (by simp)
      by_cases hto : timeout_ms < o.elapsed_ms
      · refine ⟨disable_rx o.epr, s, ?_, ?_⟩
        · simp only [read_run, hrto max_in index baddr buf_in_len o s ho.1 hto]
        · simp only [disable_rx_stat_rx]
          rfl
      · have hpend := hrpend max_in index baddr buf_in_len o s ho.1 hto ho.2
        simp only [read_run, hpend]
        refine ih s ?_ ?_
        · intro o2 h2
          exact hall o2 (by simp [h2])
        · rcases hex with ⟨o2, hmem, h2⟩
          rcases List.mem_cons.mp hmem with rfl | hmem2
          · exact absurd h2 hto
          · exact ⟨o2, hmem2, h2⟩

/-- Witness for C7 at a concrete observation past the deadline. -/
theorem timeout_spec_witness :
    write_poll 8
        ⟨⟨true, false⟩, 1001, ⟨0, 2, false, false, false, 0, false, 2, false, false,
          false, 0⟩, fun _ => 0⟩
      = (disable_tx ⟨0, 2, false, false, false, 0, false, 2, false, false, false, 0⟩,
          some (.error .Timeout)) ∧
    Stat.from_bits
        (disable_tx ⟨0, 2, false, false, false, 0, false, 2, false, false, false, 0⟩).stat_tx
      = .DISABLED :=
  timeout_spec.2.1 8
    ⟨⟨true, false⟩, 1001, ⟨0, 2, false, false, false, 0, false, 2, false, false,
      false, 0⟩, fun _ => 0⟩ rfl (by decide)

/-- C8 counterexample: on a resumption that reads STALL (device connected, deadline
not expired), the operation fails with Stall but the failure handling performs no
register write: the direction's status field is left at STALL, not set to
disabled. -/
theorem stall_no_disable_counterexample :
    write_poll 4
        ⟨⟨true, false⟩, 0, ⟨0, 1, false, false, false, 0, false, 1, false, false,
          false, 0⟩, fun _ => 0⟩
      = (⟨0, 1, false, false, false, 0, false, 1, false, false, false, 0⟩,
          some (.error .Stall)) ∧
    Stat.from_bits
        (write_poll 4
          ⟨⟨true, false⟩, 0, ⟨0, 1, false, false, false, 0, false, 1, false, false,
            false, 0⟩, fun _ => 0⟩).1.stat_tx = .STALL ∧
    read_poll 8 1 64 64
        ⟨⟨true, false⟩, 0, ⟨0, 1, false, false, false, 0, false, 1, false, false,
          false, 0⟩, fun _ => 0⟩ ⟨0, [0, 0, 0, 0]⟩
      = some ((⟨0, 1, false, false, false, 0, false, 1, false, false, false, 0⟩,
          ⟨0, [0, 0, 0, 0]⟩), some (.error .Stall)) ∧
    Stat.from_bits
        (⟨0, 1, false, false, false, 0, false, 1, false, false, false, 0⟩ : Epr).stat_rx
      = .STALL :=
  ⟨rfl, rfl, rfl, rfl⟩

/-- C8 amended: on every resumption that reads hardware status STALL (device
connected, deadline not expired), the operation fails with the Stall error and the
register is left exactly as hardware reported it — the direction keeps its STALL
status and is not set to disabled. -/
theorem stall_error_amended :
    (∀ buf_len o, o.istr.dcon_stat = true → ¬ timeout_ms < o.elapsed_ms →
      Stat.from_bits o.epr.stat_tx = .STALL →
      write_poll buf_len o = (o.epr, some (.error .Stall))) ∧
    (∀ max_in index baddr buf_in_len o s, o.istr.dcon_stat = true →
      ¬ timeout_ms < o.elapsed_ms →
      Stat.from_bits o.epr.stat_rx = .STALL →
      read_poll max_in index baddr buf_in_len o s
        = some ((o.epr, s), some (.error .Stall))) := by
  constructor
  · intro buf_len o h1 h2 h3
    simp only [write_poll, h1, Bool.not_true, Bool.false_eq_true, if_false, if_neg h2]
    rw [h3]
  · intro max_in index baddr buf_in_len o s h1 h2 h3
    simp only [read_poll, h1, Bool.not_true, Bool.false_eq_true, if_false, if_neg h2]
    rw [h3]

/-- Witness for the amended C8 at a concrete STALL observation. -/
theorem stall_error_amended_witness :
    write_poll 16
        ⟨⟨true, false⟩, 7, ⟨0, 1, false, false, false, 0, false, 1, false, false,
          false, 0⟩, fun _ => 0⟩
      = (⟨0, 1, false, false, false, 0, false, 1, false, false, false, 0⟩,
          some (.error .Stall)) :=
  stall_error_amended.1 16
    ⟨⟨true, false⟩, 7, ⟨0, 1, false, false, false, 0, false, 1, false, false,
      false, 0⟩, fun _ => 0⟩ rfl (by decide) rfl

lemma le_bytes_length (val n : Nat) : (le_bytes val n).length = n := by
  simp [le_bytes]

lemma ep_read_words_length (m : Mem) (w len : Nat) :
    (ep_read_words m w len).length = len := by
  induction len using Nat.strong_induction_on generalizing w with
  | _ len ih =>
    rw [ep_read_words]
    split
    · simp [*]
    · rw [List.length_append, le_bytes_length,
        ih (len - USBRAM_ALIGN) (by simp only [USBRAM_ALIGN]; omega) (w + 1)]
      simp only [USBRAM_ALIGN]
      omega

lemma ep_buffer_read_length (m : Mem) (addr buf_in_len len : Nat) (data : List Nat)
    (h : ep_buffer_read m addr buf_in_len len = some data) : data.length = len := by
  simp only [ep_buffer_read] at h
  split at h
  · cases h
    exact ep_read_words_length m (addr / USBRAM_ALIGN) len
  · exact absurd h (by simp)

lemma ep_buffer_read_none_iff (m : Mem) (addr buf_in_len len : Nat) :
    ep_buffer_read m addr buf_in_len len = none ↔ buf_in_len < len := by
  simp only [ep_buffer_read]
  split
  · simpa using by omega
  · simpa using by omega

/-- C1: on a resumption with the device connected and the deadline not expired
that reads hardware status DISABLED: an OUT transfer completes with Ok of the
requested length; an IN transfer decodes the received count from the receive
descriptor, copies exactly that many bytes into the caller's buffer at the
accumulated position, and completes with the accumulated count exactly when that
count reaches the requested length or the packet was shorter than
max_packet_size_in — otherwise it re-activates the RX direction (status becomes
VALID) and stays pending.  The copy happens only when the received count is
within the IN buffer's allocated capacity; a larger count trips the capacity
assert inside EndpointBuffer::read and the resumption panics (`none`). -/
theorem disabled_status_completion :
    (∀ buf_len o, o.istr.dcon_stat = true → ¬ timeout_ms < o.elapsed_ms →
      Stat.from_bits o.epr.stat_tx = .DISABLED →
      write_poll buf_len o = (o.epr, some (.ok buf_len))) ∧
    (∀ max_in index baddr buf_in_len o s, o.istr.dcon_stat = true →
      ¬ timeout_ms < o.elapsed_ms →
      Stat.from_bits o.epr.stat_rx = .DISABLED →
      ∀ rx_len, rx_len = btable.read_out_len o.mem index &&& 0x3FF →
      rx_len ≤ s.buf.length - s.count →
      (∀ data, ep_buffer_read o.mem baddr buf_in_len rx_len = some data →
        data.length = rx_len ∧
        (s.count + rx_len = s.buf.length ∨ rx_len < max_in →
          read_poll max_in index baddr buf_in_len o s
            = some ((o.epr,
                ⟨s.count + rx_len,
                  s.buf.take s.count ++ data ++ s.buf.drop (s.count + rx_len)⟩),
                some (.ok (s.count + rx_len)))) ∧
        (¬(s.count + rx_len = s.buf.length ∨ rx_len < max_in) →
          read_poll max_in index baddr buf_in_len o s
            = some ((activate_rx o.epr,
                ⟨s.count + rx_len,
                  s.buf.take s.count ++ data ++ s.buf.drop (s.count + rx_len)⟩),
                none) ∧
          Stat.from_bits (activate_rx o.epr).stat_rx = .VALID)) ∧
      (ep_buffer_read o.mem baddr buf_in_len rx_len = none →
        read_poll max_in index baddr buf_in_len o s = none)) := by
  constructor
  · intro buf_len o h1 h2 h3
    simp only [write_poll, h1, Bool.not_true, Bool.false_eq_true, if_false, if_neg h2]
    rw [h3]
  · intro max_in index baddr buf_in_len o s h1 h2 h3 rx_len hrx hle
    constructor
    · intro data hdata
      have hlen : data.length = rx_len :=
        ep_buffer_read_length o.mem baddr buf_in_len rx_len data hdata
      have hok : read_data o.mem index baddr buf_in_len (s.buf.length - s.count)
          = some (.ok data) := by
        simp only [read_data, ← hrx,
          if_neg (by omega : ¬ rx_len > s.buf.length - s.count)]
        rw [hdata]
      refine ⟨hlen, ?_, ?_⟩
      · intro hdone
        simp only [read_poll, h1, Bool.not_true, Bool.false_eq_true, if_false,
          if_neg h2]
        rw [h3]
        simp only [hok, hlen]
        rw [if_pos hdone]
      · intro hmore
        constructor
        · simp only [read_poll, h1, Bool.not_true, Bool.false_eq_true, if_false,
            if_neg h2]
          rw [h3]
          simp only [hok, hlen]
          rw [if_neg hmore]
        · simp only [activate_rx_stat_rx]
          rfl
    · intro hnone
      have hpanic : read_data o.mem index baddr buf_in_len (s.buf.length - s.count)
          = none := by
        simp only [read_data, ← hrx,
          if_neg (by omega : ¬ rx_len > s.buf.length - s.count)]
        rw [hnone]
      simp only [read_poll, h1, Bool.not_true, Bool.false_eq_true, if_false,
        if_neg h2]
      rw [h3]
      simp only [hpanic]

/-- Witness for C1: an OUT completion and a completed one-packet IN read at a
concrete observation (received length 4, request 4, IN buffer capacity 64). -/
theorem disabled_status_completion_witness :
    write_poll 4
        ⟨⟨true, false⟩, 0, ⟨0, 0, false, false, false, 0, false, 0, false, false,
          false, 0⟩, fun _ => 0⟩
      = (⟨0, 0, false, false, false, 0, false, 0, false, false, false, 0⟩,
          some (.ok 4)) ∧
    (ep_read_words (fun _ => 262144) (64 / USBRAM_ALIGN) 4).length = 4 :=
  have hread := ((disabled_status_completion.2 8 1 64 64
    ⟨⟨true, false⟩, 0, ⟨0, 0, false, false, false, 0, false, 0, false, false,
      false, 0⟩, fun _ => 262144⟩
    ⟨0, [9, 9, 9, 9]⟩ rfl (by decide) rfl 4 (by decide) (by decide)).1
    (ep_read_words (fun _ => 262144) (64 / USBRAM_ALIGN) 4) rfl)
  ⟨disabled_status_completion.1 4
      ⟨⟨true, false⟩, 0, ⟨0, 0, false, false, false, 0, false, 0, false, false,
        false, 0⟩, fun _ => 0⟩ rfl (by decide) rfl,
    hread.1⟩

/-- C2: control transfer orchestration.  control_in performs, in order, the setup
stage (SETUP flag set in the endpoint register, then an 8-byte OUT write), an IN
data stage, and a zero-length OUT status stage, returning the data stage's byte
count.  control_out performs the setup stage, skips the data stage exactly when
the payload is empty, then a zero-length IN status stage and returns the payload
length.  A failing stage aborts the transfer with that stage's error and no later
stage is performed. -/
theorem control_transfer_stages (max_in index baddr blen : Nat)
    (setup_bytes buf : List Nat) (t1 t2 t3 : List Obs)
    (hsetup : setup_bytes.length = 8) :
    (∀ r, (set_setup_reg r).setup = true) ∧
    (∀ ew e, write_run setup_bytes.length t1 = some (ew, .error e) →
      control_in max_in index baddr blen setup_bytes buf t1 t2 t3
          = some ([.set_setup_flag, .out_write 8], some (.error e)) ∧
      control_out max_in index baddr blen setup_bytes buf t1 t2 t3
          = some ([.set_setup_flag, .out_write 8], some (.error e))) ∧
    (∀ ew a er s2 e, write_run setup_bytes.length t1 = some (ew, .ok a) →
      read_run max_in index baddr blen ⟨0, buf⟩ t2 = some (some (er, s2, .error e)) →
      control_in max_in index baddr blen setup_bytes buf t1 t2 t3
          = some ([.set_setup_flag, .out_write 8, .in_read buf.length],
              some (.error e))) ∧
    (∀ ew a er s2 count ew2 e, write_run setup_bytes.length t1 = some (ew, .ok a) →
      read_run max_in index baddr blen ⟨0, buf⟩ t2 = some (some (er, s2, .ok count)) →
      write_run 0 t3 = some (ew2, .error e) →
      control_in max_in index baddr blen setup_bytes buf t1 t2 t3
          = some ([.set_setup_flag, .out_write 8, .in_read buf.length, .out_write 0],
              some (.error e))) ∧
    (∀ ew a er s2 count ew2 b, write_run setup_bytes.length t1 = some (ew, .ok a) →
      read_run max_in index baddr blen ⟨0, buf⟩ t2 = some (some (er, s2, .ok count)) →
      write_run 0 t3 = some (ew2, .ok b) →
      control_in max_in index baddr blen setup_bytes buf t1 t2 t3
          = some ([.set_setup_flag, .out_write 8, .in_read buf.length, .out_write 0],
              some (.ok count))) ∧
    (∀ ew a er s2 c2, write_run setup_bytes.length t1 = some (ew, .ok a) →
      buf = [] →
      read_run max_in index baddr blen ⟨0, []⟩ t3 = some (some (er, s2, .ok c2)) →
      control_out max_in index baddr blen setup_bytes buf t1 t2 t3
          = some ([.set_setup_flag, .out_write 8, .in_read 0],
              some (.ok buf.length))) ∧
    (∀ ew a er s2 e, write_run setup_bytes.length t1 = some (ew, .ok a) →
      buf = [] →
      read_run max_in index baddr blen ⟨0, []⟩ t3 = some (some (er, s2, .error e)) →
      control_out max_in index baddr blen setup_bytes buf t1 t2 t3
          = some ([.set_setup_flag, .out_write 8, .in_read 0], some (.error e))) ∧
    (∀ ew a ew2 e, write_run setup_bytes.length t1 = some (ew, .ok a) →
      buf ≠ [] →
      write_run buf.length t2 = some (ew2, .error e) →
      control_out max_in index baddr blen setup_bytes buf t1 t2 t3
          = some ([.set_setup_flag, .out_write 8, .out_write buf.length],
              some (.error e))) ∧
    (∀ ew a ew2 b er s2 e, write_run setup_bytes.length t1 = some (ew, .ok a) →
      buf ≠ [] →
      write_run buf.length t2 = some (ew2, .ok b) →
      read_run max_in index baddr blen ⟨0, []⟩ t3 = some (some (er, s2, .error e)) →
      control_out max_in index baddr blen setup_bytes buf t1 t2 t3
          = some ([.set_setup_flag, .out_write 8, .out_write buf.length, .in_read 0],
              some (.error e))) ∧
    (∀ ew a ew2 b er s2 c2, write_run setup_bytes.length t1 = some (ew, .ok a) →
      buf ≠ [] →
      write_run buf.length t2 = some (ew2, .ok b) →
      read_run max_in index baddr blen ⟨0, []⟩ t3 = some (some (er, s2, .ok c2)) →
      control_out max_in index baddr blen setup_bytes buf t1 t2 t3
          = some ([.set_setup_flag, .out_write 8, .out_write buf.length, .in_read 0],
              some (.ok buf.length))) := by
  refine ⟨set_setup_reg_setup, ?_, ?_, ?_, ?_, ?_, ?_, ?_, ?_, ?_⟩
  · intro ew e h1
    rw [hsetup] at h1
    constructor
    · simp only [control_in, hsetup, h1]
    · simp only [control_out, hsetup, h1]
  · intro ew a er s2 e h1 h2
    rw [hsetup] at h1
    simp only [control_in, hsetup, h1, h2]
  · intro ew a er s2 count ew2 e h1 h2 h3
    rw [hsetup] at h1
    simp only [control_in, hsetup, h1, h2, h3]
  · intro ew a er s2 count ew2 b h1 h2 h3
    rw [hsetup] at h1
    simp only [control_in, hsetup, h1, h2, h3]
  · intro ew a er s2 c2 h1 hbuf h3
    rw [hsetup] at h1
    subst hbuf
    simp only [control_out, hsetup, h1, List.isEmpty_nil, if_true, control_out_status,
      h3, List.length_nil]
    rfl
  · intro ew a er s2 e h1 hbuf h3
    rw [hsetup] at h1
    subst hbuf
    simp only [control_out, hsetup, h1, List.isEmpty_nil, if_true, control_out_status,
      h3]
    rfl
  · intro ew a ew2 e h1 hbuf h2
    rw [hsetup] at h1
    have hbe : buf.isEmpty = false := by
      cases buf
      · exact absurd rfl hbuf
      · rfl
    simp only [control_out, hsetup, h1, hbe, Bool.false_eq_true, if_false, h2]
  · intro ew a ew2 b er s2 e h1 hbuf h2 h3
    rw [hsetup] at h1
    have hbe : buf.isEmpty = false := by
      cases buf
      · exact absurd rfl hbuf
      · rfl
    simp only [control_out, hsetup, h1, hbe, Bool.false_eq_true, if_false, h2,
      control_out_status, h3]
    rfl
  · intro ew a ew2 b er s2 c2 h1 hbuf h2 h3
    rw [hsetup] at h1
    have hbe : buf.isEmpty = false := by
      cases buf
      · exact absurd rfl hbuf
      · rfl
    simp only [control_out, hsetup, h1, hbe, Bool.false_eq_true, if_false, h2,
      control_out_status, h3]
    rfl

/-- Witness for C2: a complete control_in (empty data buffer, so the IN stage
reads zero bytes) and a complete control_out with a 2-byte payload, over
concrete one-resumption traces (IN buffer capacity 64). -/
theorem control_transfer_stages_witness :
    control_in 8 1 64 64 [0, 0, 0, 0, 0, 0, 0, 0] []
        [⟨⟨true, false⟩, 0, ⟨0, 0, false, false, false, 0, false, 0, false, false,
          false, 0⟩, fun _ => 0⟩]
        [⟨⟨true, false⟩, 0, ⟨0, 0, false, false, false, 0, false, 0, false, false,
          false, 0⟩, fun _ => 0⟩]
        [⟨⟨true, false⟩, 0, ⟨0, 0, false, false, false, 0, false, 0, false, false,
          false, 0⟩, fun _ => 0⟩]
      = some ([.set_setup_flag, .out_write 8, .in_read 0, .out_write 0],
          some (.ok 0)) ∧
    control_out 8 1 64 64 [0, 0, 0, 0, 0, 0, 0, 0] [5, 6]
        [⟨⟨true, false⟩, 0, ⟨0, 0, false, false, false, 0, false, 0, false, false,
          false, 0⟩, fun _ => 0⟩]
        [⟨⟨true, false⟩, 0, ⟨0, 0, false, false, false, 0, false, 0, false, false,
          false, 0⟩, fun _ => 0⟩]
        [⟨⟨true, false⟩, 0, ⟨0, 0, false, false, false, 0, false, 0, false, false,
          false, 0⟩, fun _ => 0⟩]
      = some ([.set_setup_flag, .out_write 8, .out_write 2, .in_read 0],
          some (.ok 2)) := by
  have hw0 : ep_read_words (fun _ => (0 : Nat)) (64 / USBRAM_ALIGN) 0 = [] := by
    rw [ep_read_words]
    simp
  have hbr : ep_buffer_read (fun _ => 0) 64 64 0 = some [] := by
    simp only [ep_buffer_read, hw0]
    rfl
  have hr : read_run 8 1 64 64 ⟨0, []⟩
      [⟨⟨true, false⟩, 0, ⟨0, 0, false, false, false, 0, false, 0, false, false,
        false, 0⟩, fun _ => 0⟩]
      = some (some (⟨0, 0, false, false, false, 0, false, 0, false, false, false, 0⟩,
          ⟨0, []⟩, .ok 0)) := by
    simp [read_run, read_poll, read_data, btable.read_out_len, hbr, Stat.from_bits,
      timeout_ms]
  exact ⟨(control_transfer_stages 8 1 64 64 [0, 0, 0, 0, 0, 0, 0, 0] []
      [⟨⟨true, false⟩, 0, ⟨0, 0, false, false, false, 0, false, 0, false, false,
        false, 0⟩, fun _ => 0⟩]
      [⟨⟨true, false⟩, 0, ⟨0, 0, false, false, false, 0, false, 0, false, false,
        false, 0⟩, fun _ => 0⟩]
      [⟨⟨true, false⟩, 0, ⟨0, 0, false, false, false, 0, false, 0, false, false,
        false, 0⟩, fun _ => 0⟩] rfl).2.2.2.2.1
      ⟨0, 0, false, false, false, 0, false, 0, false, false, false, 0⟩ 8
      ⟨0, 0, false, false, false, 0, false, 0, false, false, false, 0⟩ ⟨0, []⟩ 0
      ⟨0, 0, false, false, false, 0, false, 0, false, false, false, 0⟩ 0
      (by rfl) hr (by rfl),
    (control_transfer_stages 8 1 64 64 [0, 0, 0, 0, 0, 0, 0, 0] [5, 6]
      [⟨⟨true, false⟩, 0, ⟨0, 0, false, false, false, 0, false, 0, false, false,
        false, 0⟩, fun _ => 0⟩]
      [⟨⟨true, false⟩, 0, ⟨0, 0, false, false, false, 0, false, 0, false, false,
        false, 0⟩, fun _ => 0⟩]
      [⟨⟨true, false⟩, 0, ⟨0, 0, false, false, false, 0, false, 0, false, false,
        false, 0⟩, fun _ => 0⟩] rfl).2.2.2.2.2.2.2.2.2
      ⟨0, 0, false, false, false, 0, false, 0, false, false, false, 0⟩ 8
      ⟨0, 0, false, false, false, 0, false, 0, false, false, false, 0⟩ 2
      ⟨0, 0, false, false, false, 0, false, 0, false, false, false, 0⟩ ⟨0, []⟩ 0
      (by rfl) (by simp) (by rfl) hr⟩

/-- C10: wait_for_device_event resolves exactly when the connection-status bit is
set, to Connected with speed Low when the low-speed flag is set and Full
otherwise; it can never resolve to Disconnected, and a run over resumptions that
all observe a clear connection bit stays pending forever. -/
theorem wait_for_device_event_spec :
    (∀ istr : Istr, istr.dcon_stat = true →
      wait_for_device_event_poll istr
        = some (.Connected (if istr.ls_dcon then Speed.Low else Speed.Full))) ∧
    (∀ istr : Istr, istr.dcon_stat = false → wait_for_device_event_poll istr = none) ∧
    (∀ (istr : Istr) ev, wait_for_device_event_poll istr = some ev →
      istr.dcon_stat = true ∧ ev ≠ .Disconnected) ∧
    (∀ trace : List Istr, (∀ i ∈ trace, i.dcon_stat = false) →
      wait_for_device_event_run trace = none) := by
  refine ⟨?_, ?_, ?_, ?_⟩
  · intro istr h
    simp [wait_for_device_event_poll, h]
  · intro istr h
    simp [wait_for_device_event_poll, h]
  · intro istr ev h
    by_cases hd : istr.dcon_stat = true
    · refine ⟨hd, ?_⟩
      simp only [wait_for_device_event_poll, hd, if_pos, Option.some.injEq] at h
      intro hcon
      rw [hcon] at h
      exact absurd h.symm (by simp)
    · simp only [Bool.not_eq_true] at hd
      simp [wait_for_device_event_poll, hd] at h
  · intro trace hall
    induction trace with
    | nil => rfl
    | cons i rest ih =>
      have hi := hall i (by simp)
      simp only [wait_for_device_event_run, wait_for_device_event_poll, hi,
        Bool.false_eq_true, if_false]
      exact ih fun j hj => hall j (by simp [hj])

/-- Witness for C10: a connected full-speed observation and a disconnected trace. -/
theorem wait_for_device_event_spec_witness :
    wait_for_device_event_poll ⟨true, false⟩
        = some (.Connected (if (false : Bool) then Speed.Low else Speed.Full)) ∧
    wait_for_device_event_run [⟨false, false⟩, ⟨false, true⟩] = none :=
  ⟨wait_for_device_event_spec.1 ⟨true, false⟩ rfl,
    wait_for_device_event_spec.2.2.2 [⟨false, false⟩, ⟨false, true⟩] (by
      intro i hi
      rcases List.mem_cons.mp hi with rfl | hi2
      · rfl
      · rcases List.mem_cons.mp hi2 with rfl | hi3
        · rfl
        · simp at hi3)⟩

end UsbHostModel
